import Mathlib

/-!
Verification of the provisioning pipeline in this repository
(src/core.go and src/main/main.go): entitlement verification
(ConfirmAccess), node resolution (RetrieveIP), configuration synthesis
(GenConfig) and the orchestration in main.

Shallow embedding conventions:
* Go JSON values (interface\x7b\x7d trees) are the inductive type Jval; Go
  maps map[string]interface\x7b\x7d are association lists with first-match
  lookup; a lookup of a missing key yields Jval.null (Go: a nil
  interface value), and a failed type assertion on it is a runtime
  panic, modelled by the GoRes.panic outcome.
* Strings are treated at character granularity (the source only ever
  slices ASCII data, where Go byte offsets and character offsets agree).
* The network, the filesystem and the ssh library are oracles: their
  outcomes are explicit parameters of the embedded functions.
* Process-global mutable variables (ip, conf in src/core.go) are
  threaded explicitly as state.
-/

/-- A parsed JSON document tree, as produced by Go's json.Unmarshal into
interface\x7b\x7d: null, booleans, numbers (only integers occur in this
repository's template), strings, arrays and objects. -/
inductive Jval where
  | null : Jval
  | bool : Bool → Jval
  | num : Int → Jval
  | str : String → Jval
  | arr : List Jval → Jval
  | obj : List (String × Jval) → Jval

/-- Go map read m[k] on a JSON object: the value of the first binding of
k, or null (Go: nil interface) when k is absent. -/
def jget : List (String × Jval) → String → Jval
  | [], _ => .null
  | (k', v) :: rest, k => if k' = k then v else jget rest k

/-- Go map write m[k] = v: replace the binding of k, or append one when
k is absent. -/
def setKey : List (String × Jval) → String → Jval → List (String × Jval)
  | [], k, v => [(k, v)]
  | (k', v') :: rest, k, v =>
    if k' = k then (k, v) :: rest else (k', v') :: setKey rest k v

/-- Attribute access through a Jval: object lookup, null otherwise. -/
def jatt : Jval → String → Jval
  | .obj o, k => jget o k
  | _, _ => .null

/-- Errors returned (as Go error values) by the embedded functions. -/
inductive GoErr where
  | unmarshalError : GoErr
  | writeError : GoErr
deriving DecidableEq

/-- Outcome of a piece of Go code: a value, a returned error, or a
runtime panic (failed type assertion or out-of-range slice). -/
inductive GoRes (α : Type) where
  | ok : α → GoRes α
  | err : GoErr → GoRes α
  | panic : GoRes α
deriving DecidableEq

/-- Sequencing of a fallible Go loop body over a slice, as in the
for-range loops of GenConfig: stops at the first error or panic. -/
def goMapM {α β : Type} (f : α → GoRes β) : List α → GoRes (List β)
  | [] => .ok []
  | a :: as =>
    match f a with
    | .ok b =>
      match goMapM f as with
      | .ok bs => .ok (b :: bs)
      | .err e => .err e
      | .panic => .panic
    | .err e => .err e
    | .panic => .panic

/-!
## Config Synthesizer — GenConfig (src/core.go lines 240-272)

GenConfig unmarshals the fixed template into the package-global map
conf, descends outbound → settings → vnext with unchecked type
assertions, overwrites address and every user id, marshals the tree and
writes .config.json. The descent and mutation are embedded functionally:
Go mutates the nested maps in place, which on an immutable tree is the
rebuild with setKey done below.
-/

/-- Body of the inner loop over vnext entry user lists:
um := u.(map[string]interface\x7b\x7d) — panic when u is not an object —
then um["id"] = uuid. -/
def updUser (uuid : String) (u : Jval) : GoRes Jval :=
  match u with
  | .obj um => .ok (.obj (setKey um "id" (.str uuid)))
  | _ => .panic

/-- Body of the loop over vnext: vm := v.(map[string]interface\x7b\x7d),
vm["address"] = ip, users := vm["users"].([]interface\x7b\x7d) (panic when
not an array), then the user loop. -/
def updVnextEntry (ip uuid : String) (v : Jval) : GoRes Jval :=
  match v with
  | .obj vm =>
    let vm1 := setKey vm "address" (.str ip)
    match jget vm1 "users" with
    | .arr users =>
      match goMapM (updUser uuid) users with
      | .ok users' => .ok (.obj (setKey vm1 "users" (.arr users')))
      | .err e => .err e
      | .panic => .panic
    | _ => .panic
  | _ => .panic

/-- The descent and mutation of GenConfig on an already-unmarshalled
top-level object conf: outbound := conf["outbound"].(map…),
settings := outbound["settings"].(map…), vnext := settings["vnext"].([]…),
each with a panicking type assertion, then the vnext loop. -/
def mutateConf (conf : List (String × Jval)) (ip uuid : String) : GoRes Jval :=
  match jget conf "outbound" with
  | .obj outbound =>
    match jget outbound "settings" with
    | .obj settings =>
      match jget settings "vnext" with
      | .arr vnext =>
        match goMapM (updVnextEntry ip uuid) vnext with
        | .ok vnext' =>
          .ok (.obj (setKey conf "outbound"
            (.obj (setKey outbound "settings"
              (.obj (setKey settings "vnext" (.arr vnext')))))))
        | .err e => .err e
        | .panic => .panic
      | _ => .panic
    | _ => .panic
  | _ => .panic

/-- json.Unmarshal(t, &conf) followed by the descent and mutation.
Unmarshalling a boolean, number, string or array document into
map[string]interface\x7b\x7d is a returned error (GenConfig's first early
return); unmarshalling the document null SUCCEEDS and merely zeroes the
map, so the descent then runs on a nil map — conf["outbound"] yields a
nil interface and the first type assertion panics. The template is a
parameter: in the source it is the package-global temp. -/
def genConfigDoc (t : Jval) (ip uuid : String) : GoRes Jval :=
  match t with
  | .obj conf => mutateConf conf ip uuid
  | .null => mutateConf [] ip uuid
  | _ => .err .unmarshalError

/-- Full GenConfig: the marshal of the mutated tree never fails (its
error is discarded in the source); ioutil.WriteFile may fail, which is
GenConfig's other returned error. writeOk is the filesystem oracle. -/
def GenConfig (t : Jval) (ip uuid : String) (writeOk : Bool) : GoRes Jval :=
  match genConfigDoc t ip uuid with
  | .ok d => if writeOk then .ok d else .err .writeError
  | .err e => .err e
  | .panic => .panic

/-- The fixed baseline template temp (src/core.go lines 131-239),
transcribed from its JSON text. -/
def tempKVs : List (String × Jval) :=
  [ ("inbound", .obj
      [ ("listen", .str "127.0.0.1")
      , ("port", .num 1080)
      , ("protocol", .str "socks")
      , ("settings", .obj [("auth", .str "noauth"), ("udp", .bool false)])
      ])
  , ("outbound", .obj
      [ ("protocol", .str "vmess")
      , ("settings", .obj
          [ ("vnext", .arr
              [ .obj
                  [ ("address", .str "freedomland.tk")
                  , ("port", .num 443)
                  , ("users", .arr
                      [ .obj
                          [ ("id", .str "b831381d-6324-4d53-ad4f-8cda48b30811")
                          , ("alterId", .num 64)
                          ]
                      ])
                  ]
              ])
          ])
      , ("streamSettings", .obj
          [ ("network", .str "ws")
          , ("security", .str "tls")
          , ("tlsSettings", .obj [("serverName", .str "freedomland.tk")])
          , ("wsSettings", .obj [("path", .str "/ray")])
          ])
      , ("mux", .obj [("enabled", .bool true)])
      ])
  , ("outboundDetour", .arr
      [ .obj
          [ ("protocol", .str "freedom")
          , ("settings", .obj [])
          , ("tag", .str "direct")
          ]
      , .obj
          [ ("protocol", .str "blackhole")
          , ("settings", .obj [])
          , ("tag", .str "adblock")
          ]
      ])
  , ("routing", .obj
      [ ("strategy", .str "rules")
      , ("settings", .obj
          [ ("domainStrategy", .str "IPIfNonMatch")
          , ("rules", .arr
              [ .obj
                  [ ("ip", .arr
                      [ .str "0.0.0.0/8", .str "10.0.0.0/8"
                      , .str "100.64.0.0/10", .str "127.0.0.0/8"
                      , .str "169.254.0.0/16", .str "172.16.0.0/12"
                      , .str "192.0.0.0/24", .str "192.0.2.0/24"
                      , .str "192.168.0.0/16", .str "198.18.0.0/15"
                      , .str "198.51.100.0/24", .str "203.0.113.0/24"
                      , .str "::1/128", .str "fc00::/7", .str "fe80::/10"
                      ])
                  , ("type", .str "field")
                  , ("outboundTag", .str "direct")
                  ]
              , .obj
                  [ ("domain", .arr [.str "tanx.com", .str "googeadsserving.cn"])
                  , ("type", .str "field")
                  , ("outboundTag", .str "adblock")
                  ]
              , .obj
                  [ ("domain", .arr
                      [ .str "amazon.com", .str "microsoft.com", .str "jd.com"
                      , .str "youku.com", .str "baidu.com"
                      ])
                  , ("type", .str "field")
                  , ("outboundTag", .str "direct")
                  ]
              , .obj [("type", .str "chinasites"), ("outboundTag", .str "direct")]
              , .obj [("type", .str "chinaip"), ("outboundTag", .str "direct")]
              ])
          ])
      ])
  ]

/-- The template as a document. -/
def temp : Jval := .obj tempKVs

/-- The vnext list of a document: outbound → settings → vnext, empty
when any level is missing or of another type. -/
def vnextList (d : Jval) : List Jval :=
  match jatt (jatt (jatt d "outbound") "settings") "vnext" with
  | .arr l => l
  | _ => []

/-- The users list of a vnext entry. -/
def usersList (v : Jval) : List Jval :=
  match jatt v "users" with
  | .arr l => l
  | _ => []

/-- The document GenConfig produces from the fixed template for the
end-to-end scenario address and secret of the specification. -/
def tempOutDoc : Jval :=
  match genConfigDoc temp "198.51.100.7" "uuid-123" with
  | .ok d => d
  | _ => .null

/-- The first vnext entry of that document. -/
def tempOutVnext0 : Jval := (vnextList tempOutDoc).getD 0 .null

/-- The first user entry of that vnext entry. -/
def tempOutUser0 : Jval := (usersList tempOutVnext0).getD 0 .null

/-!
## Shape predicates and sample documents
-/

/-- Whether a document is a JSON object. -/
def isObjB : Jval → Bool
  | .obj _ => true
  | _ => false

/-- Whether json.Unmarshal of a document into map[string]interface\x7b\x7d
returns an error: it does for booleans, numbers, strings and arrays; it
succeeds for objects and also for null, which only zeroes the map. -/
def unmarshalFails : Jval → Bool
  | .obj _ => false
  | .null => false
  | _ => true

/-- Whether a user entry survives the user loop's type assertion. -/
def userOK : Jval → Bool := isObjB

/-- Whether a vnext entry survives the entry loop: an object whose users
key holds an array of objects. -/
def entryOK : Jval → Bool
  | .obj vm =>
    match jget vm "users" with
    | .arr us => us.all userOK
    | _ => false
  | _ => false

/-- Whether the descent of GenConfig succeeds on a top-level object:
outbound an object, its settings an object, its vnext an array, every
entry passing entryOK. No constraint on the number of vnext entries. -/
def confShapeOK (conf : List (String × Jval)) : Bool :=
  match jget conf "outbound" with
  | .obj outbound =>
    match jget outbound "settings" with
    | .obj settings =>
      match jget settings "vnext" with
      | .arr vnext => vnext.all entryOK
      | _ => false
    | _ => false
  | _ => false

/-- Shape acceptance for a whole template document. -/
def shapeOK : Jval → Bool
  | .obj conf => confShapeOK conf
  | _ => false

/-- A template whose vnext list is empty. -/
def vnextEmptyTemplate : Jval :=
  .obj [("outbound", .obj [("settings", .obj [("vnext", .arr [])])])]

/-- A template whose vnext list has two entries. -/
def vnextTwoTemplate : Jval :=
  .obj [("outbound", .obj [("settings", .obj [("vnext", .arr
    [ .obj [("users", .arr [.obj []])]
    , .obj [("users", .arr [.obj []])] ])])])]

/-!
## Global conf reuse (src/core.go line 240, var conf)

conf is a package-global map. json.Unmarshal into a non-nil map keeps
existing entries and overwrites every key present in the JSON text with
a freshly decoded value (no deep merge for interface\x7b\x7d elements). A
second GenConfig call therefore re-decodes the template over the map
mutated by the first call.
-/

/-- json.Unmarshal of the fixed template temp into the global conf:
fresh map on the first call, key-by-key overwrite of the existing map on
later calls. -/
def unmarshalTempInto (old : Option Jval) : List (String × Jval) :=
  match old with
  | some (.obj o) => tempKVs.foldl (fun acc kv => setKey acc kv.1 kv.2) o
  | _ => tempKVs

/-- GenConfig with the package-global conf made explicit: returns the
produced document (or failure) together with the new value of conf. The
write step is elided — it does not read or change conf. -/
def GenConfigStateful (old : Option Jval) (ip uuid : String) :
    GoRes Jval × Option Jval :=
  let conf := unmarshalTempInto old
  match mutateConf conf ip uuid with
  | .ok d => (.ok d, some d)
  | r => (r, some (.obj conf))

/-!
## Node Locator — RetrieveIP, NodeIP (src/core.go lines 29-36, 64-96)

The global ip and the count of HTTP requests issued are explicit state.
The HTTP response is an oracle: none models a failed http.Get (or a
failed ReadAll), some body a successful one.
-/

/-- Process-global state of the core package: the node address variable
ip (src/core.go line 35) plus an instrumentation counter of HTTP
requests actually issued. -/
structure GState where
  ip : String
  httpGets : Nat
deriving DecidableEq

/-- Splitting a character stream at newline characters. -/
def splitNlChars : List Char → List (List Char)
  | [] => [[]]
  | c :: cs =>
    if c = '\n' then [] :: splitNlChars cs
    else
      match splitNlChars cs with
      | [] => [[c]]
      | l :: ls => (c :: l) :: ls

/-- bufio.ScanLines strips one trailing carriage return from each line. -/
def dropCRChars (cs : List Char) : List Char :=
  if cs.getLast? = some '\r' then cs.dropLast else cs

/-- The token sequence produced by bufio.Scanner with ScanLines on a
body: split at newlines; a final empty fragment after a terminating
newline yields no token (so an empty body yields no tokens). -/
def goLines (s : String) : List String :=
  let ps := splitNlChars s.toList
  let qs := if ps.getLast? = some [] then ps.dropLast else ps
  qs.map (fun cs => String.mk (dropCRChars cs))

/-- The scanner loop of RetrieveIP (src/core.go lines 86-94): on the
first line, ip = text[len(uname)+1:] — a Go slice that panics when the
line is shorter than len(uname)+1; every later line is only printed. -/
def scanGo (uname : String) (ip : String) (i : Nat) : List String → GoRes String
  | [] => .ok ip
  | l :: rest =>
    if i = 0 then
      if uname.length + 1 ≤ l.length then
        scanGo uname (l.drop (uname.length + 1)) (i + 1) rest
      else .panic
    else scanGo uname ip (i + 1) rest

/-- RetrieveIP: issues one HTTP GET unconditionally; on a failed request
or body read it prints and returns "" without touching ip; otherwise it
scans the body, assigns the global ip from the first line and returns
the global ip. -/
def RetrieveIP (uname : String) (resp : Option String) (st : GState) :
    GState × GoRes String :=
  let st1 : GState := { st with httpGets := st.httpGets + 1 }
  match resp with
  | none => (st1, .ok "")
  | some body =>
    match scanGo uname st1.ip 0 (goLines body) with
    | .ok newIp => ({ st1 with ip := newIp }, .ok newIp)
    | .err e => (st1, .err e)
    | .panic => (st1, .panic)

/-- NodeIP (src/core.go lines 64-66): reads the global ip, no request. -/
def NodeIP (st : GState) : String := st.ip

/-!
## Entitlement Verifier — getKeyFile, ConfirmAccess (src/core.go 50-62, 98-129)

Oracles: readResult is ioutil.ReadFile of ~/.ssh/id_rsa; parseKey is
ssh.ParsePrivateKey on the bytes read; dialResult is ssh.Dial — none on
a successful handshake, some msg when the dial fails with an error whose
Error() text is msg.
-/

/-- getKeyFile: returns the read error, else the parse outcome. -/
def getKeyFile (readResult : Except String String)
    (parseKey : String → Except String Unit) : Except String Unit :=
  match readResult with
  | .error e => .error e
  | .ok buf => parseKey buf

/-- The exact rejection signature matched at src/core.go line 120. -/
def noFurtherMethodsSig : String :=
  "ssh: handshake failed: ssh: unable to authenticate, attempted methods [none publickey], no supported methods remain"

/-- Observable outcome of ConfirmAccess: whether ssh.Dial was reached,
what was printed, and the returned error value. -/
structure ConfirmOut where
  dialed : Bool
  printed : List String
  result : Except String Unit

/-- ConfirmAccess: a getKeyFile failure is returned before any dial; a
dial failure is printed — with a special text when the message equals
the rejection signature — and the underlying error is returned as is. -/
def ConfirmAccess (readResult : Except String String)
    (parseKey : String → Except String Unit)
    (dialResult : Option String) : ConfirmOut :=
  match getKeyFile readResult parseKey with
  | .error e => { dialed := false, printed := [], result := .error e }
  | .ok _ =>
    match dialResult with
    | some msg =>
      { dialed := true
      , printed := [if msg = noFurtherMethodsSig then
            "Failed to dial: out of bandwidth or date"
          else "Failed to dial: " ++ msg]
      , result := .error msg }
    | none => { dialed := true, printed := [], result := .ok () }

/-!
## Orchestration — main, startV2Ray (src/main/main.go lines 37-188)

main registers "defer os.Remove(.config.json)" as its first statement.
Deferred functions run when main returns, but os.Exit terminates the
process without running them. startV2Ray removes .config.json itself
after the engine is constructed successfully. The model tracks whether
the artifact exists at process end and whether the deferred removal ran.
-/

/-- The command-line flags of src/main/main.go relevant to control flow. -/
structure MainFlags where
  uname : String
  uuid : String
  version : Bool
  test : Bool
  plugin : Bool
deriving DecidableEq

/-- Oracle outcomes of the steps main performs. freelandConf is the line
list of .freeland.conf (none: the file is unreadable); confirmOk is
whether core.ConfirmAccess returned nil; retrievedIP is the string
core.RetrieveIP returned; genOk whether core.GenConfig returned nil;
pluginOk, engineNewOk (config load plus core.New in startV2Ray),
engineStartOk likewise. -/
structure World where
  freelandConf : Option (List String)
  confirmOk : Bool
  retrievedIP : String
  genOk : Bool
  pluginOk : Bool
  engineNewOk : Bool
  engineStartOk : Bool
deriving DecidableEq

/-- How the process ends: a normal return from main, or os.Exit. -/
inductive Term where
  | ret : Term
  | exit : Int → Term
deriving DecidableEq

/-- End-of-process observation: how main ended, whether .config.json
still exists, and whether the deferred removal ran. -/
structure MainOut where
  term : Term
  artifact : Bool
  deferredRemoveRan : Bool
deriving DecidableEq

/-- A normal return from main: the deferred os.Remove(".config.json")
runs, so the artifact is gone whatever state it was in. -/
def retEnd : MainOut :=
  { term := .ret, artifact := false, deferredRemoveRan := true }

/-- os.Exit(code): deferred functions do not run; the artifact stays in
whatever state the run left it. -/
def exitEnd (code : Int) (artifact : Bool) : MainOut :=
  { term := .exit code, artifact := artifact, deferredRemoveRan := false }

/-- The control flow of main (src/main/main.go lines 95-188), with
startV2Ray inlined at its call site: the enrollment branch on the
uname/uuid flags, the .freeland.conf read, ConfirmAccess, RetrieveIP,
GenConfig (which creates .config.json on success), the version early
return, plugin loading, engine construction (on success startV2Ray
removes .config.json), test mode, engine start, then the signal wait
and normal return. -/
def mainRun (fl : MainFlags) (w : World) : MainOut :=
  if fl.uname ≠ "" ∨ fl.uuid ≠ "" then retEnd
  else
    match w.freelandConf with
    | none => retEnd
    | some ls =>
      if ls.getD 0 "" = "" ∨ ls.getD 1 "" = "" then retEnd
      else if w.confirmOk = false then retEnd
      else if w.retrievedIP = "" then retEnd
      else if w.genOk = false then retEnd
      else
        if fl.version then retEnd
        else if fl.plugin ∧ w.pluginOk = false then exitEnd (-1) true
        else if w.engineNewOk = false then exitEnd (-1) true
        else if fl.test then exitEnd 0 false
        else if w.engineStartOk = false then exitEnd (-1) false
        else retEnd

/-- Flags of a run that fails at plugin loading. -/
def pluginFailFlags : MainFlags :=
  { uname := "", uuid := "", version := false, test := false, plugin := true }

/-- A world in which every pipeline step up to plugin loading succeeds
and plugin loading fails. -/
def pluginFailWorld : World :=
  { freelandConf := some ["bob", "uuid-123"], confirmOk := true
  , retrievedIP := "198.51.100.7", genOk := true, pluginOk := false
  , engineNewOk := true, engineStartOk := true }

/-- Flags of a run that only prints the version after synthesis. -/
def versionFlags : MainFlags :=
  { uname := "", uuid := "", version := true, test := false, plugin := false }

/-- Flags of a test-only run. -/
def testFlags : MainFlags :=
  { uname := "", uuid := "", version := false, test := true, plugin := false }

/-!
## Properties

First the general lemmas about the embedding, then the theorems
settling the individual claims.
-/

theorem jget_setKey_self (o : List (String × Jval)) (k : String) (v : Jval) :
    jget (setKey o k v) k = v := by
  induction o with
  | nil => simp [setKey, jget]
  | cons kv rest ih =>
    by_cases h : kv.1 = k
    · simp [setKey, h, jget]
    · simp [setKey, h, jget, ih]

theorem jget_setKey_ne (o : List (String × Jval)) (k k' : String) (v : Jval)
    (h : k' ≠ k) : jget (setKey o k v) k' = jget o k' := by
  induction o with
  | nil =>
    show jget [(k, v)] k' = jget [] k'
    simp only [jget]
    rw [if_neg (fun hh => h hh.symm)]
  | cons kv rest ih =>
    obtain ⟨k0, v0⟩ := kv
    simp only [setKey]
    by_cases hk : k0 = k
    · subst hk
      rw [if_pos rfl]
      simp only [jget]
      rw [if_neg (fun hh => h hh.symm), if_neg (fun hh => h hh.symm)]
    · rw [if_neg hk]
      simp only [jget]
      by_cases hk' : k0 = k'
      · rw [if_pos hk', if_pos hk']
      · rw [if_neg hk', if_neg hk', ih]

theorem goMapM_ok_forall₂ {α β : Type} (f : α → GoRes β) :
    ∀ (l : List α) (l' : List β), goMapM f l = .ok l' →
      List.Forall₂ (fun x y => f x = .ok y) l l' := by
  intro l
  induction l with
  | nil =>
    intro l' h
    simp [goMapM] at h
    subst h
    exact List.Forall₂.nil
  | cons a as ih =>
    intro l' h
    simp only [goMapM] at h
    cases ha : f a with
    | ok b =>
      rw [ha] at h
      cases has : goMapM f as with
      | ok bs =>
        rw [has] at h
        cases h
        exact List.Forall₂.cons ha (ih bs has)
      | err e => rw [has] at h; cases h
      | panic => rw [has] at h; cases h
    | err e => rw [ha] at h; cases h
    | panic => rw [ha] at h; cases h

theorem forall₂_mem_right {α β : Type} {R : α → β → Prop} :
    ∀ {l : List α} {l' : List β}, List.Forall₂ R l l' →
      ∀ y ∈ l', ∃ x ∈ l, R x y := by
  intro l l' h
  induction h with
  | nil => intro y hy; cases hy
  | cons hab _ ih =>
    intro y hy
    cases hy with
    | head => exact ⟨_, List.mem_cons_self .., hab⟩
    | tail _ hy' =>
      obtain ⟨x, hx, hR⟩ := ih y hy'
      exact ⟨x, List.mem_cons_of_mem _ hx, hR⟩

theorem goMapM_ok_of_all {α β : Type} (f : α → GoRes β) :
    ∀ l : List α, (∀ x ∈ l, ∃ y, f x = .ok y) → ∃ l', goMapM f l = .ok l' := by
  intro l
  induction l with
  | nil => intro _; exact ⟨[], rfl⟩
  | cons a as ih =>
    intro h
    obtain ⟨b, hb⟩ := h a (List.mem_cons_self ..)
    obtain ⟨bs, hbs⟩ := ih (fun x hx => h x (List.mem_cons_of_mem _ hx))
    exact ⟨b :: bs, by simp [goMapM, hb, hbs]⟩

theorem goMapM_panic_of_ex {α β : Type} (f : α → GoRes β)
    (hf : ∀ x, f x = .panic ∨ ∃ y, f x = .ok y) :
    ∀ l : List α, (∃ x ∈ l, f x = .panic) → goMapM f l = .panic := by
  intro l
  induction l with
  | nil =>
    rintro ⟨x, hx, _⟩
    cases hx
  | cons a as ih =>
    rintro ⟨x, hx, hpx⟩
    rcases List.mem_cons.mp hx with rfl | hx'
    · simp [goMapM, hpx]
    · rcases hf a with ha | ⟨b, hb⟩
      · simp [goMapM, ha]
      · simp [goMapM, hb, ih ⟨x, hx', hpx⟩]

theorem scanGo_pos (uname ip : String) :
    ∀ (ls : List String) (i : Nat), i ≠ 0 → scanGo uname ip i ls = .ok ip := by
  intro ls
  induction ls with
  | nil => intro i _; rfl
  | cons l rest ih =>
    intro i hi
    simp only [scanGo, if_neg hi]
    exact ih (i + 1) (Nat.succ_ne_zero i)

theorem scanGo_first (uname ip l : String) (rest : List String) :
    scanGo uname ip 0 (l :: rest) =
      if uname.length + 1 ≤ l.length then .ok (l.drop (uname.length + 1))
      else .panic := by
  have h1 : scanGo uname (l.drop (uname.length + 1)) (0 + 1) rest
      = .ok (l.drop (uname.length + 1)) :=
    scanGo_pos _ _ _ _ (Nat.succ_ne_zero 0)
  by_cases h : uname.length + 1 ≤ l.length
  · simp [scanGo, h, h1]
  · simp [scanGo, h]

/-!
## Inversion lemmas for the GenConfig mutation
-/

theorem updUser_ok {uuid : String} {u u' : Jval}
    (h : updUser uuid u = .ok u') :
    ∃ um, u = .obj um ∧ u' = .obj (setKey um "id" (.str uuid)) := by
  cases u with
  | obj um =>
    refine ⟨um, rfl, ?_⟩
    simpa [updUser] using h.symm
  | null => exact GoRes.noConfusion h
  | bool b => exact GoRes.noConfusion h
  | num n => exact GoRes.noConfusion h
  | str s => exact GoRes.noConfusion h
  | arr l => exact GoRes.noConfusion h

theorem updVnextEntry_ok {ip uuid : String} {v v' : Jval}
    (h : updVnextEntry ip uuid v = .ok v') :
    ∃ vm users users',
      v = .obj vm ∧
      jget vm "users" = .arr users ∧
      goMapM (updUser uuid) users = .ok users' ∧
      v' = .obj (setKey (setKey vm "address" (.str ip)) "users" (.arr users')) := by
  cases v with
  | obj vm =>
    simp only [updVnextEntry] at h
    have husers : jget (setKey vm "address" (.str ip)) "users" = jget vm "users" :=
      jget_setKey_ne vm "address" "users" (.str ip) (by decide)
    rw [husers] at h
    cases hu : jget vm "users" <;> simp only [hu] at h
    case arr users =>
      cases hm : goMapM (updUser uuid) users <;> simp only [hm] at h
      case ok users' =>
        injection h with h2
        exact ⟨vm, users, users', rfl, hu, hm, h2.symm⟩
      all_goals exact GoRes.noConfusion h
    all_goals exact GoRes.noConfusion h
  | null => exact GoRes.noConfusion h
  | bool b => exact GoRes.noConfusion h
  | num n => exact GoRes.noConfusion h
  | str s => exact GoRes.noConfusion h
  | arr l => exact GoRes.noConfusion h

theorem mutateConf_ok {conf : List (String × Jval)} {ip uuid : String} {d : Jval}
    (h : mutateConf conf ip uuid = .ok d) :
    ∃ outbound settings vnext vnext',
      jget conf "outbound" = .obj outbound ∧
      jget outbound "settings" = .obj settings ∧
      jget settings "vnext" = .arr vnext ∧
      goMapM (updVnextEntry ip uuid) vnext = .ok vnext' ∧
      d = .obj (setKey conf "outbound"
        (.obj (setKey outbound "settings"
          (.obj (setKey settings "vnext" (.arr vnext')))))) := by
  simp only [mutateConf] at h
  cases ho : jget conf "outbound" <;> simp only [ho] at h
  case obj outbound =>
    cases hs : jget outbound "settings" <;> simp only [hs] at h
    case obj settings =>
      cases hv : jget settings "vnext" <;> simp only [hv] at h
      case arr vnext =>
        cases hm : goMapM (updVnextEntry ip uuid) vnext <;> simp only [hm] at h
        case ok vnext' =>
          injection h with h2
          exact ⟨outbound, settings, vnext, vnext', rfl, hs, hv, hm, h2.symm⟩
        all_goals exact GoRes.noConfusion h
      all_goals exact GoRes.noConfusion h
    all_goals exact GoRes.noConfusion h
  all_goals exact GoRes.noConfusion h

theorem genConfigDoc_ok {t : Jval} {ip uuid : String} {d : Jval}
    (h : genConfigDoc t ip uuid = .ok d) :
    ∃ conf, t = .obj conf ∧ mutateConf conf ip uuid = .ok d := by
  cases t with
  | obj conf => exact ⟨conf, rfl, h⟩
  | null => exact GoRes.noConfusion h
  | bool b => exact GoRes.noConfusion h
  | num n => exact GoRes.noConfusion h
  | str s => exact GoRes.noConfusion h
  | arr l => exact GoRes.noConfusion h

theorem updUser_panic_or_ok (S : String) (u : Jval) :
    updUser S u = .panic ∨ ∃ y, updUser S u = .ok y := by
  cases u
  case obj um => exact Or.inr ⟨_, rfl⟩
  all_goals exact Or.inl rfl

theorem updUser_ok_of_userOK (S : String) (u : Jval) (h : userOK u = true) :
    ∃ y, updUser S u = .ok y := by
  cases u
  case obj um => exact ⟨_, rfl⟩
  all_goals simp [userOK, isObjB] at h

theorem updUser_panic_of_not (S : String) (u : Jval) (h : userOK u = false) :
    updUser S u = .panic := by
  cases u
  case obj um => simp [userOK, isObjB] at h
  all_goals rfl

theorem updVnextEntry_ok_of_entryOK (A S : String) (v : Jval)
    (h : entryOK v = true) : ∃ y, updVnextEntry A S v = .ok y := by
  cases v
  case obj vm =>
    simp only [entryOK] at h
    cases hu : jget vm "users" <;> simp only [hu] at h
    case arr us =>
      obtain ⟨us', hus⟩ := goMapM_ok_of_all (updUser S) us
        (fun x hx => updUser_ok_of_userOK S x (by
          have := List.all_eq_true.mp h x hx
          simpa using this))
      refine ⟨.obj (setKey (setKey vm "address" (.str A)) "users" (.arr us')), ?_⟩
      simp [updVnextEntry, jget_setKey_ne vm "address" "users" (.str A) (by decide),
        hu, hus]
    all_goals exact Bool.noConfusion h
  all_goals simp [entryOK] at h

theorem updVnextEntry_panic_of_not (A S : String) (v : Jval)
    (h : entryOK v = false) : updVnextEntry A S v = .panic := by
  cases v
  case obj vm =>
    simp only [entryOK] at h
    cases hu : jget vm "users" <;> simp only [hu] at h
    case arr us =>
      have hex : ∃ x ∈ us, userOK x = false := by
        rcases List.all_eq_false.mp h with ⟨x, hx, hfx⟩
        exact ⟨x, hx, by simpa using hfx⟩
      have hpan : goMapM (updUser S) us = .panic := by
        obtain ⟨x, hx, hfx⟩ := hex
        exact goMapM_panic_of_ex _ (updUser_panic_or_ok S) us
          ⟨x, hx, updUser_panic_of_not S x hfx⟩
      simp [updVnextEntry, jget_setKey_ne vm "address" "users" (.str A) (by decide),
        hu, hpan]
    all_goals
      simp [updVnextEntry, jget_setKey_ne vm "address" "users" (.str A) (by decide), hu]
  all_goals rfl

theorem updVnextEntry_panic_or_ok (A S : String) (v : Jval) :
    updVnextEntry A S v = .panic ∨ ∃ y, updVnextEntry A S v = .ok y := by
  cases he : entryOK v with
  | true => exact Or.inr (updVnextEntry_ok_of_entryOK A S v he)
  | false => exact Or.inl (updVnextEntry_panic_of_not A S v he)

theorem mutateConf_ok_of_shape (conf : List (String × Jval)) (A S : String)
    (h : confShapeOK conf = true) : ∃ d, mutateConf conf A S = .ok d := by
  simp only [confShapeOK] at h
  cases ho : jget conf "outbound" <;> simp only [ho] at h
  case obj outbound =>
    cases hs : jget outbound "settings" <;> simp only [hs] at h
    case obj settings =>
      cases hv : jget settings "vnext" <;> simp only [hv] at h
      case arr vnext =>
        obtain ⟨vnext', hm⟩ := goMapM_ok_of_all (updVnextEntry A S) vnext
          (fun x hx => updVnextEntry_ok_of_entryOK A S x (by
            have := List.all_eq_true.mp h x hx
            simpa using this))
        refine ⟨.obj (setKey conf "outbound"
          (.obj (setKey outbound "settings"
            (.obj (setKey settings "vnext" (.arr vnext')))))), ?_⟩
        simp only [mutateConf, ho, hs, hv, hm]
      all_goals exact Bool.noConfusion h
    all_goals exact Bool.noConfusion h
  all_goals exact Bool.noConfusion h

theorem mutateConf_panic_of_not (conf : List (String × Jval)) (A S : String)
    (h : confShapeOK conf = false) : mutateConf conf A S = .panic := by
  simp only [confShapeOK] at h
  cases ho : jget conf "outbound" <;> simp only [ho] at h
  case obj outbound =>
    cases hs : jget outbound "settings" <;> simp only [hs] at h
    case obj settings =>
      cases hv : jget settings "vnext" <;> simp only [hv] at h
      case arr vnext =>
        have hpan : goMapM (updVnextEntry A S) vnext = .panic := by
          rcases List.all_eq_false.mp h with ⟨x, hx, hfx⟩
          exact goMapM_panic_of_ex _ (updVnextEntry_panic_or_ok A S) vnext
            ⟨x, hx, updVnextEntry_panic_of_not A S x (by simpa using hfx)⟩
        simp only [mutateConf, ho, hs, hv, hpan]
      all_goals simp only [mutateConf, ho, hs, hv]
    all_goals simp only [mutateConf, ho, hs]
  all_goals simp only [mutateConf, ho]

/-!
## Claims C1 and C6 — what GenConfig writes and what it leaves alone
-/

/-- C1: for every template on which GenConfig's descent succeeds, every
produced vnext entry's address field equals the resolved address and the
id field of every entry in its user list equals the secret — the same
secret is broadcast to all user entries. -/
theorem genConfig_sets_address_and_broadcasts_id (t d : Jval) (A S : String)
    (h : genConfigDoc t A S = .ok d) :
    ∀ v ∈ vnextList d, jatt v "address" = .str A ∧
      ∀ u ∈ usersList v, jatt u "id" = .str S := by
  obtain ⟨conf, rfl, hm⟩ := genConfigDoc_ok h
  obtain ⟨outbound, settings, vnext, vnext', ho, hs, hv, hmap, rfl⟩ := mutateConf_ok hm
  have hvd : vnextList (Jval.obj (setKey conf "outbound"
      (.obj (setKey outbound "settings"
        (.obj (setKey settings "vnext" (.arr vnext'))))))) = vnext' := by
    simp [vnextList, jatt, jget_setKey_self]
  rw [hvd]
  intro v hvmem
  obtain ⟨v0, _, hupd⟩ :=
    forall₂_mem_right (goMapM_ok_forall₂ _ _ _ hmap) v hvmem
  obtain ⟨vm, users, users', rfl, hu, hum, rfl⟩ := updVnextEntry_ok hupd
  constructor
  · simp only [jatt]
    rw [jget_setKey_ne _ "users" "address" _ (by decide), jget_setKey_self]
  · intro u humem
    have husers : usersList (Jval.obj (setKey (setKey vm "address" (.str A))
        "users" (.arr users'))) = users' := by
      simp [usersList, jatt, jget_setKey_self]
    rw [husers] at humem
    obtain ⟨u0, _, hup⟩ :=
      forall₂_mem_right (goMapM_ok_forall₂ _ _ _ hum) u humem
    obtain ⟨um, rfl, rfl⟩ := updUser_ok hup
    simp only [jatt]
    exact jget_setKey_self um "id" (.str S)

theorem genConfig_sets_address_and_broadcasts_id_witness :
    jatt tempOutVnext0 "address" = .str "198.51.100.7" ∧
    jatt tempOutUser0 "id" = .str "uuid-123" := by
  have h := genConfig_sets_address_and_broadcasts_id temp tempOutDoc
    "198.51.100.7" "uuid-123" rfl
  have hmemv : tempOutVnext0 ∈ vnextList tempOutDoc := by
    have he : vnextList tempOutDoc = [tempOutVnext0] := rfl
    rw [he]
    exact List.mem_cons_self ..
  obtain ⟨ha, hu⟩ := h tempOutVnext0 hmemv
  refine ⟨ha, ?_⟩
  have hmemu : tempOutUser0 ∈ usersList tempOutVnext0 := by
    have he : usersList tempOutVnext0 = [tempOutUser0] := rfl
    rw [he]
    exact List.mem_cons_self ..
  exact hu tempOutUser0 hmemu

/-- C6: GenConfig's synthesis touches only the vnext entries' address
fields and their user entries' id fields: every other top-level section
(inbound, detours, routing), every other key of the outbound block
(streamSettings, mux, protocol), every other key of its settings, every
other field of each vnext entry and every other field of each user entry
keeps the value it has in the template. -/
theorem genConfig_frame (t d : Jval) (A S : String)
    (h : genConfigDoc t A S = .ok d) :
    (∀ k, k ≠ "outbound" → jatt d k = jatt t k) ∧
    (∀ k, k ≠ "settings" →
      jatt (jatt d "outbound") k = jatt (jatt t "outbound") k) ∧
    (∀ k, k ≠ "vnext" →
      jatt (jatt (jatt d "outbound") "settings") k
        = jatt (jatt (jatt t "outbound") "settings") k) ∧
    List.Forall₂ (fun v v' =>
        (∀ k, k ≠ "address" → k ≠ "users" → jatt v' k = jatt v k) ∧
        List.Forall₂ (fun u u' => ∀ k, k ≠ "id" → jatt u' k = jatt u k)
          (usersList v) (usersList v'))
      (vnextList t) (vnextList d) := by
  obtain ⟨conf, rfl, hm⟩ := genConfigDoc_ok h
  obtain ⟨outbound, settings, vnext, vnext', ho, hs, hv, hmap, rfl⟩ := mutateConf_ok hm
  refine ⟨?_, ?_, ?_, ?_⟩
  · intro k hk
    simp only [jatt]
    exact jget_setKey_ne conf "outbound" k _ hk
  · intro k hk
    simp only [jatt, jget_setKey_self, ho]
    exact jget_setKey_ne outbound "settings" k _ hk
  · intro k hk
    simp only [jatt, jget_setKey_self, ho, hs]
    exact jget_setKey_ne settings "vnext" k _ hk
  · have hvt : vnextList (.obj conf) = vnext := by
      simp [vnextList, jatt, ho, hs, hv]
    have hvd : vnextList (Jval.obj (setKey conf "outbound"
        (.obj (setKey outbound "settings"
          (.obj (setKey settings "vnext" (.arr vnext'))))))) = vnext' := by
      simp [vnextList, jatt, jget_setKey_self]
    rw [hvt, hvd]
    refine List.Forall₂.imp ?_ (goMapM_ok_forall₂ _ _ _ hmap)
    intro v v' hupd
    obtain ⟨vm, users, users', rfl, hu, hum, rfl⟩ := updVnextEntry_ok hupd
    constructor
    · intro k hka hku
      simp only [jatt]
      rw [jget_setKey_ne _ "users" k _ hku, jget_setKey_ne _ "address" k _ hka]
    · have h1 : usersList (.obj vm) = users := by simp [usersList, jatt, hu]
      have h2 : usersList (Jval.obj (setKey (setKey vm "address" (.str A))
          "users" (.arr users'))) = users' := by
        simp [usersList, jatt, jget_setKey_self]
      rw [h1, h2]
      refine List.Forall₂.imp ?_ (goMapM_ok_forall₂ _ _ _ hum)
      intro u u' hup
      obtain ⟨um, rfl, rfl⟩ := updUser_ok hup
      intro k hk
      simp only [jatt]
      exact jget_setKey_ne um "id" k _ hk

theorem genConfig_frame_witness :
    jatt tempOutDoc "inbound" = jatt temp "inbound" ∧
    jatt tempOutDoc "routing" = jatt temp "routing" ∧
    jatt tempOutDoc "outboundDetour" = jatt temp "outboundDetour" ∧
    jatt (jatt tempOutDoc "outbound") "streamSettings"
      = jatt (jatt temp "outbound") "streamSettings" ∧
    jatt (jatt tempOutDoc "outbound") "mux" = jatt (jatt temp "outbound") "mux" := by
  have h := genConfig_frame temp tempOutDoc "198.51.100.7" "uuid-123" rfl
  exact ⟨h.1 "inbound" (by decide), h.1 "routing" (by decide),
    h.1 "outboundDetour" (by decide), h.2.1 "streamSettings" (by decide),
    h.2.1 "mux" (by decide)⟩

/-!
## Claim C4 — behavior of GenConfig on deviant template shapes
-/

/-- C4 (amended): on a template whose top level is a boolean, number,
string or array, GenConfig returns the unmarshal error; on a top-level
null — where the unmarshal succeeds and only zeroes the map — and on a
top-level object whose shape deviates at any later descent step,
GenConfig ends in a runtime panic (failed type assertion), not a
returned error; on a shape-accepted template — with no constraint on
the number of vnext entries — a write failure is returned as an error
and a successful write yields the document. -/
theorem genConfig_shape_behavior (t : Jval) (A S : String) (w : Bool) :
    (unmarshalFails t = true → GenConfig t A S w = .err .unmarshalError) ∧
    (unmarshalFails t = false → shapeOK t = false → GenConfig t A S w = GoRes.panic) ∧
    (shapeOK t = true → w = false → GenConfig t A S w = .err .writeError) ∧
    (shapeOK t = true → w = true → ∃ d, GenConfig t A S w = .ok d) := by
  refine ⟨?_, ?_, ?_, ?_⟩
  · intro h
    cases t
    case obj conf => simp [unmarshalFails] at h
    case null => simp [unmarshalFails] at h
    all_goals rfl
  · intro h1 h2
    cases t
    case obj conf =>
      have hp := mutateConf_panic_of_not conf A S (by simpa [shapeOK] using h2)
      simp [GenConfig, genConfigDoc, hp]
    case null => rfl
    all_goals exact Bool.noConfusion h1
  · intro h1 h2
    cases t
    case obj conf =>
      obtain ⟨d, hd⟩ := mutateConf_ok_of_shape conf A S (by simpa [shapeOK] using h1)
      subst h2
      simp [GenConfig, genConfigDoc, hd]
    all_goals exact Bool.noConfusion h1
  · intro h1 h2
    cases t
    case obj conf =>
      obtain ⟨d, hd⟩ := mutateConf_ok_of_shape conf A S (by simpa [shapeOK] using h1)
      subst h2
      exact ⟨d, by simp [GenConfig, genConfigDoc, hd]⟩
    all_goals exact Bool.noConfusion h1

/-- C4 counterexample: on a template with no outbound block — a
structural deviation — GenConfig's run is a panic, so it does not return
an error value of any kind, contradicting the claimed TemplateShapeError
result. -/
theorem genConfig_missing_outbound_panics :
    GenConfig (Jval.obj []) "198.51.100.7" "uuid-123" true = GoRes.panic := rfl

theorem genConfig_shape_behavior_witness :
    GenConfig (Jval.arr []) "a" "s" true = .err .unmarshalError ∧
    GenConfig Jval.null "a" "s" true = GoRes.panic ∧
    GenConfig (Jval.obj [("outbound", Jval.str "x")]) "a" "s" true = GoRes.panic ∧
    GenConfig vnextEmptyTemplate "a" "s" false = .err .writeError ∧
    GenConfig vnextTwoTemplate "a" "s" false = .err .writeError :=
  ⟨(genConfig_shape_behavior (Jval.arr []) "a" "s" true).1 (by decide),
   (genConfig_shape_behavior Jval.null "a" "s" true).2.1 (by decide) (by decide),
   (genConfig_shape_behavior (Jval.obj [("outbound", Jval.str "x")]) "a" "s" true).2.1
      (by decide) (by decide),
   (genConfig_shape_behavior vnextEmptyTemplate "a" "s" false).2.2.1 (by decide) rfl,
   (genConfig_shape_behavior vnextTwoTemplate "a" "s" false).2.2.1 (by decide) rfl⟩

/-!
## Claim C8 — two GenConfig calls over the shared global conf
-/

/-- C8: running GenConfig twice with the same address and secret yields
the same document, even though the second call re-unmarshals the fixed
template over the package-global conf map left mutated by the first
call: the unmarshal overwrites every template key with freshly decoded
values. -/
theorem genConfig_twice_same_document (A S : String) :
    (GenConfigStateful (GenConfigStateful none A S).2 A S).1
      = (GenConfigStateful none A S).1 := rfl

/-!
## Claims C2, C5, C10 — RetrieveIP
-/

/-- C10: on a response body with a first line, RetrieveIP issues no
out-of-range access and returns the first line's suffix after offset
len(uname)+1 exactly when the first line is at least len(uname)+1
characters long; on a shorter first line the unchecked slice panics —
the bound is tight. -/
theorem retrieveIP_totality_bound (uname body : String) (st : GState)
    (l : String) (rest : List String) (h : goLines body = l :: rest) :
    (RetrieveIP uname (some body) st).2 =
      if uname.length + 1 ≤ l.length then .ok (l.drop (uname.length + 1))
      else GoRes.panic := by
  by_cases hl : uname.length + 1 ≤ l.length
  · simp [RetrieveIP, h, scanGo_first, hl]
  · simp [RetrieveIP, h, scanGo_first, hl]

theorem retrieveIP_totality_bound_witness :
    (RetrieveIP "bob" (some "bob=10.9.8.7\nlog\n") { ip := "", httpGets := 0 }).2
      = .ok "10.9.8.7" := by
  rw [retrieveIP_totality_bound "bob" "bob=10.9.8.7\nlog\n"
    { ip := "", httpGets := 0 } "bob=10.9.8.7" ["log"] (by decide)]
  decide

/-- C2 counterexample: for subject "alice" and body "x\n" — a first line
shorter than len("alice")+1 — RetrieveIP does not return the claimed
substring of the first line: its run ends in a slice-bounds panic. -/
theorem retrieveIP_short_firstline_panics :
    (RetrieveIP "alice" (some "x\n") { ip := "", httpGets := 0 }).2
      = GoRes.panic := by decide

/-- C2 (amended): for every subject and every response body whose first
line has at least len(subject)+1 characters, RetrieveIP returns the
substring of the first line from offset len(subject)+1 to the end of
that line; the lines after the first never affect the returned address
(the result depends only on the first line). -/
theorem retrieveIP_parses_firstline (uname body : String) (st : GState)
    (l : String) (rest : List String)
    (h : goLines body = l :: rest) (hlen : uname.length + 1 ≤ l.length) :
    (RetrieveIP uname (some body) st).2 = .ok (l.drop (uname.length + 1)) := by
  simp [RetrieveIP, h, scanGo_first, hlen]

theorem retrieveIP_parses_firstline_witness :
    (RetrieveIP "alice" (some "alice=10.1.2.3\nsome log line\n")
        { ip := "", httpGets := 0 }).2 = .ok "10.1.2.3" := by
  rw [retrieveIP_parses_firstline "alice" "alice=10.1.2.3\nsome log line\n"
    { ip := "", httpGets := 0 } "alice=10.1.2.3" ["some log line"]
    (by decide) (by decide)]
  decide

/-- C5 counterexample: after a first successful resolution of
"10.0.0.1", a second RetrieveIP call with a response naming "10.0.0.2"
returns the fresh value, not the memoized one, and the process has by
then issued two HTTP requests — the claimed at-most-one resolution per
run is violated by the second call. -/
theorem retrieveIP_second_call_requests_again :
    ((RetrieveIP "alice" (some "alice=10.0.0.2\n")
        (RetrieveIP "alice" (some "alice=10.0.0.1\n")
          { ip := "", httpGets := 0 }).1).2 = .ok "10.0.0.2") ∧
    ((RetrieveIP "alice" (some "alice=10.0.0.2\n")
        (RetrieveIP "alice" (some "alice=10.0.0.1\n")
          { ip := "", httpGets := 0 }).1).1.httpGets = 2) := by decide

/-- C5 (amended): the resolved address is stored in the process-global
ip variable and NodeIP reads it back without any request, but RetrieveIP
itself is not memoized: every call — including every call after a
successful resolution — issues exactly one further HTTP request. -/
theorem retrieveIP_not_memoized (uname : String) (resp : Option String)
    (st : GState) :
    (RetrieveIP uname resp st).1.httpGets = st.httpGets + 1 ∧
    NodeIP st = st.ip := by
  refine ⟨?_, rfl⟩
  cases resp with
  | none => rfl
  | some body =>
    simp only [RetrieveIP]
    split <;> rfl

/-!
## Claims C3 and C7 — ConfirmAccess
-/

/-- C3 counterexample: on the handshake failure whose message is exactly
the rejection signature, ConfirmAccess returns the underlying error
value itself — Except.error of the raw message — exactly the same form
it returns for any other dial failure; no distinguished rejection error
value is produced. -/
theorem confirmAccess_returns_raw_error_on_signature :
    (ConfirmAccess (.ok "key") (fun _ => .ok ()) (some noFurtherMethodsSig)).result
        = Except.error noFurtherMethodsSig ∧
    (ConfirmAccess (.ok "key") (fun _ => .ok ()) (some "connection refused")).result
        = Except.error "connection refused" := ⟨rfl, rfl⟩

/-- C3 (amended): when the key loads, a dial failure makes ConfirmAccess
print a specific operator message when the failure message exactly
matches the rejection signature and a generic one otherwise, but in
both cases the returned error is the underlying handshake error,
unchanged: the classification is observable only in the printed output,
not in the returned value. -/
theorem confirmAccess_classifies_only_in_print (r : Except String String)
    (p : String → Except String Unit) (msg : String)
    (h : getKeyFile r p = .ok ()) :
    (ConfirmAccess r p (some msg)).result = Except.error msg ∧
    (ConfirmAccess r p (some msg)).printed =
      [if msg = noFurtherMethodsSig then "Failed to dial: out of bandwidth or date"
       else "Failed to dial: " ++ msg] := by
  simp [ConfirmAccess, h]

theorem confirmAccess_classifies_only_in_print_witness :
    (ConfirmAccess (.ok "key") (fun _ => .ok ())
        (some noFurtherMethodsSig)).result = Except.error noFurtherMethodsSig ∧
    (ConfirmAccess (.ok "key") (fun _ => .ok ())
        (some noFurtherMethodsSig)).printed =
      [if noFurtherMethodsSig = noFurtherMethodsSig then
        "Failed to dial: out of bandwidth or date"
       else "Failed to dial: " ++ noFurtherMethodsSig] :=
  confirmAccess_classifies_only_in_print (.ok "key") (fun _ => .ok ())
    noFurtherMethodsSig rfl

/-- C7: when the locally stored private key is unreadable or
unparseable, ConfirmAccess returns that failure before any network
activity: no dial to the authority occurs. -/
theorem confirmAccess_no_dial_on_credential_failure (r : Except String String)
    (p : String → Except String Unit) (d : Option String) (e : String)
    (h : getKeyFile r p = .error e) :
    ConfirmAccess r p d =
      { dialed := false, printed := [], result := .error e } := by
  simp [ConfirmAccess, h]

theorem confirmAccess_no_dial_on_credential_failure_witness :
    ConfirmAccess (.error "open id_rsa: no such file or directory")
        (fun _ => .ok ()) (some "unused")
      = { dialed := false, printed := []
        , result := .error "open id_rsa: no such file or directory" } :=
  confirmAccess_no_dial_on_credential_failure _ _ _ _ rfl

/-!
## Claim C9 — artifact deletion at termination
-/

/-- C9 counterexample: when plugin loading fails after the profile was
synthesized, main terminates through os.Exit(-1): the deferred removal
does not run and .config.json is left on disk — no best-effort deletion
is performed at that termination. -/
theorem mainRun_plugin_failure_leaves_artifact :
    mainRun pluginFailFlags pluginFailWorld =
      { term := Term.exit (-1), artifact := true
      , deferredRemoveRan := false } := by decide

/-- C9 (amended): the deferred removal of .config.json runs exactly on
the terminations where main returns normally (normal completion, the
interrupt-signal path, and every failure handled by an early return),
and on those the artifact is gone; terminations through os.Exit skip the
deferred removal — on the plugin-loading and engine-construction failure
paths this leaves the artifact on disk. -/
theorem mainRun_cleanup_behavior (fl : MainFlags) (w : World) :
    ((mainRun fl w).term = Term.ret →
      (mainRun fl w).deferredRemoveRan = true ∧ (mainRun fl w).artifact = false) ∧
    ((mainRun fl w).term ≠ Term.ret →
      (mainRun fl w).deferredRemoveRan = false) := by
  unfold mainRun
  repeat' split
  all_goals simp [retEnd, exitEnd]

theorem mainRun_cleanup_behavior_witness :
    ((mainRun versionFlags pluginFailWorld).deferredRemoveRan = true ∧
      (mainRun versionFlags pluginFailWorld).artifact = false) ∧
    (mainRun testFlags pluginFailWorld).deferredRemoveRan = false :=
  ⟨(mainRun_cleanup_behavior versionFlags pluginFailWorld).1 (by decide),
   (mainRun_cleanup_behavior testFlags pluginFailWorld).2 (by decide)⟩
